import Mathlib

/-!
Shallow embedding of the apidome/cache repository core:
the in-memory storage backend (mapCache.go), the LRU wrapper
(the current draft with the item counter) and the LFU wrapper
(lfuCache.go), together with the background-timer machinery.

Keys are modelled as `Nat` (Go `interface{}` keys are opaque values
compared by equality); durations (`time.Duration`, an int64 of
nanoseconds) are modelled as `Int`.  Go maps are modelled as
association lists whose key lists are duplicate-free; `aset` is Go map
assignment, `aerase` is Go `delete`.
-/

/-- Error kinds of the package, from the `errorType` constants
(`cache.go` / the error files): only the kinds the embedded code uses. -/
inductive ErrType where
  | alreadyExists
  | doesNotExist
  | nonPositivePeriod
  | nilUpdateFunc
  | cacheNotEmpty
  | unexpectedError
deriving DecidableEq

deriving instance DecidableEq for Except

/-- Message sent on a `cacheChannel` (`proceed` from a signaler whose
duration elapsed, `abort` from a cancellation). -/
inductive Msg where
  | proceed
  | abort
deriving DecidableEq

/-- Modelled from the spec: the state of one `cacheChannel`, whose
implementation file is not in the sources (only its callers are).
Per the spec it is a single-delivery cancellation primitive: it is
signaled exactly once (a "do-once" guard), later signals are dropped,
and its single consumer receives the stored message once. -/
inductive ChanState where
  | unsignaled
  | signaled (m : Msg)
  | consumed
deriving DecidableEq

/-- Lookup in an association list (Go map read `m[k]`). -/
def alookup {α : Type} : List (Nat × α) → Nat → Option α
  | [], _ => none
  | (k, v) :: rest, key => if k = key then some v else alookup rest key

/-- Remove the first binding of a key (Go `delete(m, k)`; Go maps hold a
key at most once, so removing the first binding is exact). -/
def aerase {α : Type} : List (Nat × α) → Nat → List (Nat × α)
  | [], _ => []
  | (k, v) :: rest, key => if k = key then rest else (k, v) :: aerase rest key

/-- Assignment in an association list (Go map write `m[k] = v`):
overwrites the existing binding or appends a new one. -/
def aset {α : Type} : List (Nat × α) → Nat → α → List (Nat × α)
  | [], key, nv => [(key, nv)]
  | (k, v) :: rest, key, nv =>
    if k = key then (k, nv) :: rest else (k, v) :: aset rest key nv

/-- State of the in-memory backend `mapCache` (src/mapCache.go), together
with the background machinery it spawns.  `cacheMap`, `removeChannels` and
`updateChannels` are the three maps of the Go struct.  `chans` (channel id
to channel state), `nextChan`, `pendingSignalers` (signaler goroutines
whose `time.After` has not fired yet), `expireRoutines` (blocked
`expireRoutine` goroutines as channel-id/key pairs), `updateRoutines`
(blocked `updateRoutine` goroutines, carrying their update function and
period) and `panicked` model the goroutines and channels the methods
spawn; channel behaviour is modelled from the spec because the
`cacheChannel` implementation file is absent from the sources. -/
structure MC (α : Type) where
  cacheMap : List (Nat × α)
  removeChannels : List (Nat × Nat)
  updateChannels : List (Nat × Nat)
  chans : List (Nat × ChanState)
  nextChan : Nat
  pendingSignalers : List Nat
  expireRoutines : List (Nat × Nat)
  updateRoutines : List (Nat × Nat × (α → α) × Int)
  panicked : Bool

/-- Constructor `NewMapCache`: empty maps, no goroutines. -/
def newMapCache (α : Type) : MC α :=
  ⟨[], [], [], [], 0, [], [], [], false⟩

/-- Modelled from the spec: `cacheChannel.signal` is a "do-once" guarded
single delivery — the first signal is stored for the consumer, any later
signal (for example an `abort` arriving after a `proceed`) is dropped. -/
def chanSignal {α : Type} (m : MC α) (c : Nat) (msg : Msg) : MC α :=
  match alookup m.chans c with
  | some ChanState.unsignaled => { m with chans := aset m.chans c (ChanState.signaled msg) }
  | _ => m

/-- Method `store` of `mapCache`: fails with `AlreadyExists` when the key
is present, otherwise inserts the value. -/
def mcStore {α : Type} (m : MC α) (k : Nat) (v : α) : MC α × Option ErrType :=
  if (alookup m.cacheMap k).isSome then
    (m, some ErrType.alreadyExists)
  else
    ({ m with cacheMap := aset m.cacheMap k v }, none)

/-- Method `get` of `mapCache`: fails with `DoesNotExist` when the key is
absent; reads do not mutate the state. -/
def mcGet {α : Type} (m : MC α) (k : Nat) : Except ErrType α :=
  match alookup m.cacheMap k with
  | none => Except.error ErrType.doesNotExist
  | some v => Except.ok v

/-- Method `remove` of `mapCache`: `get` to check presence, signal `abort`
on the key's remove and update channels when they exist and delete their
map entries, then delete the key. -/
def mcRemove {α : Type} (m : MC α) (k : Nat) : MC α × Option ErrType :=
  match mcGet m k with
  | Except.error e => (m, some e)
  | Except.ok _ =>
    let m1 :=
      match alookup m.removeChannels k with
      | some c =>
        let ms := chanSignal m c Msg.abort
        { ms with removeChannels := aerase ms.removeChannels k }
      | none => m
    let m2 :=
      match alookup m1.updateChannels k with
      | some c =>
        let ms := chanSignal m1 c Msg.abort
        { ms with updateChannels := aerase ms.updateChannels k }
      | none => m1
    ({ m2 with cacheMap := aerase m2.cacheMap k }, none)

/-- Method `replace` of `mapCache`: `remove` then `store`. -/
def mcReplace {α : Type} (m : MC α) (k : Nat) (v : α) : MC α × Option ErrType :=
  match mcRemove m k with
  | (m1, some e) => (m1, some e)
  | (m1, none) => mcStore m1 k v

/-- Loop body of `clear`: `remove` every key of the snapshot, stopping at
the first error. -/
def mcClearGo {α : Type} : MC α → List Nat → MC α × Option ErrType
  | m, [] => (m, none)
  | m, k :: rest =>
    match mcRemove m k with
    | (m1, some e) => (m1, some e)
    | (m1, none) => mcClearGo m1 rest

/-- Method `clear` of `mapCache`: `remove` every key of the map. -/
def mcClear {α : Type} (m : MC α) : MC α × Option ErrType :=
  mcClearGo m (m.cacheMap.map Prod.fst)

/-- Method `keys` of `mapCache`. -/
def mcKeys {α : Type} (m : MC α) : List Nat :=
  m.cacheMap.map Prod.fst

/-- Method `storeWithExpiration` of `mapCache`: rejects `ttl ≤ 0` with
`NonPositivePeriod`, stores the value, registers a fresh channel in
`removeChannels`, and spawns `expireSignalerRoutine` and `expireRoutine`
goroutines. -/
def mcStoreWithExpiration {α : Type} (m : MC α) (k : Nat) (v : α) (ttl : Int) :
    MC α × Option ErrType :=
  if ttl ≤ 0 then
    (m, some ErrType.nonPositivePeriod)
  else
    match mcStore m k v with
    | (m1, some e) => (m1, some e)
    | (m1, none) =>
      let c := m1.nextChan
      ({ m1 with
          chans := aset m1.chans c ChanState.unsignaled
          nextChan := c + 1
          removeChannels := aset m1.removeChannels k c
          pendingSignalers := m1.pendingSignalers ++ [c]
          expireRoutines := m1.expireRoutines ++ [(c, k)] }, none)

/-- Method `replaceWithExpiration` of `mapCache`: ttl guard, `remove`,
then `storeWithExpiration`. -/
def mcReplaceWithExpiration {α : Type} (m : MC α) (k : Nat) (v : α) (ttl : Int) :
    MC α × Option ErrType :=
  if ttl ≤ 0 then
    (m, some ErrType.nonPositivePeriod)
  else
    match mcRemove m k with
    | (m1, some e) => (m1, some e)
    | (m1, none) => mcStoreWithExpiration m1 k v ttl

/-- Method `expire` of `mapCache`: rejects `ttl ≤ 0` with
`NonPositivePeriod`, then `get`, `remove` and `storeWithExpiration` the
existing value with the new ttl. -/
def mcExpire {α : Type} (m : MC α) (k : Nat) (ttl : Int) : MC α × Option ErrType :=
  if ttl ≤ 0 then
    (m, some ErrType.nonPositivePeriod)
  else
    match mcGet m k with
    | Except.error e => (m, some e)
    | Except.ok v =>
      match mcRemove m k with
      | (m1, some e) => (m1, some e)
      | (m1, none) => mcStoreWithExpiration m1 k v ttl

/-- Method `storeWithUpdate` of `mapCache`: rejects a nil update function
and a non-positive period, stores the initial value, registers a fresh
channel in `updateChannels` and spawns the signaler and update
goroutines. -/
def mcStoreWithUpdate {α : Type} (m : MC α) (k : Nat) (v : α)
    (f : Option (α → α)) (period : Int) : MC α × Option ErrType :=
  match f with
  | none => (m, some ErrType.nilUpdateFunc)
  | some fn =>
    if period ≤ 0 then
      (m, some ErrType.nonPositivePeriod)
    else
      match mcStore m k v with
      | (m1, some e) => (m1, some e)
      | (m1, none) =>
        let c := m1.nextChan
        ({ m1 with
            chans := aset m1.chans c ChanState.unsignaled
            nextChan := c + 1
            updateChannels := aset m1.updateChannels k c
            pendingSignalers := m1.pendingSignalers ++ [c]
            updateRoutines := m1.updateRoutines ++ [(c, k, fn, period)] }, none)

/-- Method `replaceWithUpdate` of `mapCache`: guards, `remove`, then
`storeWithUpdate`. -/
def mcReplaceWithUpdate {α : Type} (m : MC α) (k : Nat) (v : α)
    (f : Option (α → α)) (period : Int) : MC α × Option ErrType :=
  match f with
  | none => (m, some ErrType.nilUpdateFunc)
  | some fn =>
    if period ≤ 0 then
      (m, some ErrType.nonPositivePeriod)
    else
      match mcRemove m k with
      | (m1, some e) => (m1, some e)
      | (m1, none) => mcStoreWithUpdate m1 k v (some fn) period

/-- Scheduler step: `expireSignalerRoutine`/`updateSignalerRoutine` whose
`time.After(ttl)` elapsed signals `proceed` on its channel. -/
def stepSignalFire {α : Type} (m : MC α) (c : Nat) : MC α :=
  if m.pendingSignalers.contains c then
    chanSignal { m with pendingSignalers := m.pendingSignalers.erase c } c Msg.proceed
  else m

/-- Scheduler step: a blocked `expireRoutine` consumes the message of its
channel.  On `abort` it returns; on `proceed` it takes the lock and
deletes the key from `cacheMap` unconditionally ("Ignoring errors here
because if the value was already removed manually we shouldn't care"),
without deleting the key's `removeChannels` entry and without checking
that it is still the active timer for the key. -/
def stepConsumeExpire {α : Type} (m : MC α) (c : Nat) : MC α :=
  match alookup m.expireRoutines c with
  | none => m
  | some k =>
    match alookup m.chans c with
    | some (ChanState.signaled msg) =>
      let m1 := { m with
        chans := aset m.chans c ChanState.consumed
        expireRoutines := aerase m.expireRoutines c }
      match msg with
      | Msg.abort => m1
      | Msg.proceed => { m1 with cacheMap := aerase m1.cacheMap k }
    | _ => m

/-- Scheduler step: a blocked `updateRoutine` consumes its message.  On
`proceed` it takes the lock, then `get`, `remove` and `storeWithUpdate`
the key with the updated value; an error in any of the three calls makes
the goroutine panic (`panicked` is set). -/
def stepConsumeUpdate {α : Type} (m : MC α) (c : Nat) : MC α :=
  match alookup m.updateRoutines c with
  | none => m
  | some (k, fn, period) =>
    match alookup m.chans c with
    | some (ChanState.signaled msg) =>
      let m1 := { m with
        chans := aset m.chans c ChanState.consumed
        updateRoutines := aerase m.updateRoutines c }
      match msg with
      | Msg.abort => m1
      | Msg.proceed =>
        match mcGet m1 k with
        | Except.error _ => { m1 with panicked := true }
        | Except.ok curr =>
          match mcRemove m1 k with
          | (m2, some _) => { m2 with panicked := true }
          | (m2, none) =>
            match mcStoreWithUpdate m2 k (fn curr) (some fn) period with
            | (m3, some _) => { m3 with panicked := true }
            | (m3, none) => m3
    | _ => m

/-- Reachability of a `mapCache` state (over `Nat` values) from a freshly
constructed cache, under caller operations and the timer scheduler
steps. -/
inductive MCReach : MC Nat → Prop where
  | init : MCReach (newMapCache Nat)
  | store (k v : Nat) {m : MC Nat} (h : MCReach m) : MCReach (mcStore m k v).1
  | storeWithExpiration (k v : Nat) (ttl : Int) {m : MC Nat} (h : MCReach m) :
      MCReach (mcStoreWithExpiration m k v ttl).1
  | storeWithUpdate (k v : Nat) (f : Option (Nat → Nat)) (period : Int)
      {m : MC Nat} (h : MCReach m) : MCReach (mcStoreWithUpdate m k v f period).1
  | remove (k : Nat) {m : MC Nat} (h : MCReach m) : MCReach (mcRemove m k).1
  | replace (k v : Nat) {m : MC Nat} (h : MCReach m) : MCReach (mcReplace m k v).1
  | replaceWithExpiration (k v : Nat) (ttl : Int) {m : MC Nat} (h : MCReach m) :
      MCReach (mcReplaceWithExpiration m k v ttl).1
  | replaceWithUpdate (k v : Nat) (f : Option (Nat → Nat)) (period : Int)
      {m : MC Nat} (h : MCReach m) : MCReach (mcReplaceWithUpdate m k v f period).1
  | expire (k : Nat) (ttl : Int) {m : MC Nat} (h : MCReach m) :
      MCReach (mcExpire m k ttl).1
  | clear {m : MC Nat} (h : MCReach m) : MCReach (mcClear m).1
  | signalFire (c : Nat) {m : MC Nat} (h : MCReach m) : MCReach (stepSignalFire m c)
  | consumeExpire (c : Nat) {m : MC Nat} (h : MCReach m) : MCReach (stepConsumeExpire m c)
  | consumeUpdate (c : Nat) {m : MC Nat} (h : MCReach m) : MCReach (stepConsumeUpdate m c)

/-- Item stored by the LRU wrapper in its backend (`lruItem`): the cached
value plus a reference to the corresponding linked-list node, modelled by
a node identifier. -/
structure LruItem where
  value : Nat
  node : Nat
deriving DecidableEq

/-- State of the LRU wrapper (`lruCache`, current draft with the item
counter).  The `container/list` doubly linked list is modelled as a list
of (node id, key) pairs, front first; `nextNode` allocates node ids.
`capacity` and `numberOfItems` are Go `int`s, so `Int`
(`numberOfItems` can go negative through `remove` on a state built over a
pre-populated custom backend). -/
structure LruState where
  capacity : Int
  numberOfItems : Int
  storage : MC LruItem
  list : List (Nat × Nat)
  nextNode : Nat

/-- Constructor `NewLru`: wraps a fresh `mapCache`. -/
def newLru (capacity : Int) : LruState :=
  ⟨capacity, 0, newMapCache LruItem, [], 0⟩

/-- Constructor `NewLruWithCustomCache`, exactly as written in the source:
it returns the `CacheNotEmpty` error when `len(keys) == 0`, that is when
the supplied backend IS empty, and wraps the backend otherwise. -/
def newLruWithCustomCache (capacity : Int) (c : MC LruItem) :
    Except ErrType LruState :=
  let keys := mcKeys c
  if keys.length = 0 then
    Except.error ErrType.cacheNotEmpty
  else
    Except.ok ⟨capacity, 0, c, [], 0⟩

/-- `list.Element.Next()` returns nil once the element was removed
(`container/list.remove` clears its links), so the `clear` loop of the
wrapper stops after removing the front node: the list keeps its tail. -/
def listDropFront (l : List (Nat × Nat)) : List (Nat × Nat) :=
  l.drop 1

/-- `list.MoveToFront(e)`: no-op when the node is no longer in this list,
otherwise unlink it and reinsert it at the front. -/
def listMoveToFront (l : List (Nat × Nat)) (nodeId : Nat) : List (Nat × Nat) :=
  match alookup l nodeId with
  | none => l
  | some k => (nodeId, k) :: aerase l nodeId

/-- Method `store` of the LRU wrapper: push the key at the front of the
list, store the item; on a store error remove the BACK node of the list
(as written — not the node that was just pushed); on success, when the
counter equals the capacity, remove the key of the back node from the
backend only (the back node itself is not unlinked), else increment the
counter. -/
def lruStore (s : LruState) (k v : Nat) : LruState × Option ErrType :=
  let nodeId := s.nextNode
  let s1 : LruState := { s with list := (nodeId, k) :: s.list, nextNode := nodeId + 1 }
  let item : LruItem := ⟨v, nodeId⟩
  match mcStore s1.storage k item with
  | (st1, some e) =>
    ({ s1 with storage := st1, list := s1.list.dropLast }, some e)
  | (st1, none) =>
    let s2 : LruState := { s1 with storage := st1 }
    if s2.numberOfItems = s2.capacity then
      match s2.list.getLast? with
      | none => (s2, some ErrType.unexpectedError)
      | some back =>
        match mcRemove s2.storage back.2 with
        | (st2, some e) => ({ s2 with storage := st2 }, some e)
        | (st2, none) => ({ s2 with storage := st2 }, none)
    else
      ({ s2 with numberOfItems := s2.numberOfItems + 1 }, none)

/-- Method `get` of the LRU wrapper: fetch the item from the backend, move
its node to the front, return the wrapped value. -/
def lruGet (s : LruState) (k : Nat) : LruState × Except ErrType Nat :=
  match mcGet s.storage k with
  | Except.error e => (s, Except.error e)
  | Except.ok item =>
    ({ s with list := listMoveToFront s.list item.node }, Except.ok item.value)

/-- Method `remove` of the LRU wrapper: fetch the item, remove the key
from the backend, unlink the item's node and decrement the counter. -/
def lruRemove (s : LruState) (k : Nat) : LruState × Option ErrType :=
  match mcGet s.storage k with
  | Except.error e => (s, some e)
  | Except.ok item =>
    match mcRemove s.storage k with
    | (st1, some e) => ({ s with storage := st1 }, some e)
    | (st1, none) =>
      let s1 : LruState := { s with
        storage := st1
        list := aerase s.list item.node
        numberOfItems := s.numberOfItems - 1 }
      (s1, none)

/-- Method `replace` of the LRU wrapper: `remove` then `store`. -/
def lruReplace (s : LruState) (k v : Nat) : LruState × Option ErrType :=
  match lruRemove s k with
  | (s1, some e) => (s1, some e)
  | (s1, none) => lruStore s1 k v

/-- Method `clear` of the LRU wrapper: clear the backend, then run the
node-removal loop (which only removes the front node, see
`listDropFront`); the item counter is not reset. -/
def lruClear (s : LruState) : LruState × Option ErrType :=
  match mcClear s.storage with
  | (st1, some e) => ({ s with storage := st1 }, some e)
  | (st1, none) =>
    ({ s with storage := st1, list := listDropFront s.list }, none)

/-- Method `Keys` of the LRU wrapper: the backend's keys. -/
def lruKeys (s : LruState) : List Nat :=
  mcKeys s.storage

/-- Method `Count` of the LRU wrapper. -/
def lruCount (s : LruState) : Int :=
  s.numberOfItems

/-- Method `IsFull` of the LRU wrapper. -/
def lruIsFull (s : LruState) : Bool :=
  s.capacity = s.numberOfItems

/-- Method `IsEmpty` of the LRU wrapper. -/
def lruIsEmpty (s : LruState) : Bool :=
  s.numberOfItems = 0

/-- Heap item of the LFU wrapper (`lfuHeapItem`): `value` holds the
cached key, `frequency` the access count, `index` the slot index
maintained by the `heap.Interface` methods (left exactly as the source
writes it, including the swapped writes in `Swap`).  Heap items are
allocated behind pointers; the model gives each one an id and keeps the
live items in an id-indexed store. -/
structure LfuHeapItem where
  value : Nat
  frequency : Nat
  index : Int
deriving DecidableEq

/-- Frequency of the item with the given id (items are always looked up
through live pointers in the source, so the default is never taken in a
state built by the operations). -/
def itemFreq (items : List (Nat × LfuHeapItem)) (id : Nat) : Nat :=
  match alookup items id with
  | some it => it.frequency
  | none => 0

/-- Key stored in the item with the given id (`heapItem.value`). -/
def itemValue (items : List (Nat × LfuHeapItem)) (id : Nat) : Nat :=
  match alookup items id with
  | some it => it.value
  | none => 0

/-- Write the `index` field of an item through its pointer. -/
def setIndex (items : List (Nat × LfuHeapItem)) (id : Nat) (ix : Int) :
    List (Nat × LfuHeapItem) :=
  match alookup items id with
  | some it => aset items id { it with index := ix }
  | none => items

/-- Increment the `frequency` field of an item through its pointer
(`lfuItem.heapItem.frequency++`). -/
def bumpFreq (items : List (Nat × LfuHeapItem)) (id : Nat) :
    List (Nat × LfuHeapItem) :=
  match alookup items id with
  | some it => aset items id { it with frequency := it.frequency + 1 }
  | none => items

/-- Method `Less` of `lfuHeap`: compare the frequencies at two slots. -/
def hLess (items : List (Nat × LfuHeapItem)) (h : List Nat) (i j : Nat) : Bool :=
  itemFreq items (h.getD i 0) < itemFreq items (h.getD j 0)

/-- Method `Swap` of `lfuHeap`: swap two slots, then write the `index`
fields exactly as the source does (the element moved to slot `i` gets
index `j` and vice versa — the source swaps the two index writes). -/
def hSwap (items : List (Nat × LfuHeapItem)) (h : List Nat) (i j : Nat) :
    List (Nat × LfuHeapItem) × List Nat :=
  let hi := h.getD i 0
  let hj := h.getD j 0
  let h1 := (h.set i hj).set j hi
  let items1 := setIndex items hj j
  let items2 := setIndex items1 hi i
  (items2, h1)

/-- Function `down` of `container/heap`, with an explicit fuel argument
standing for the loop.  Each iteration either stops or continues at a
child slot `j` with `i < j < n`, so the loop runs at most `n - i` times:
every caller passes fuel `n`, which the strictly increasing slot index
can never exhaust.  (The Go guard `j1 < 0` is an int-overflow check with
no counterpart over `Nat`.) -/
def hDownGo : List (Nat × LfuHeapItem) → List Nat → Nat → Nat → Nat →
    List (Nat × LfuHeapItem) × List Nat
  | items, h, _, _, 0 => (items, h)
  | items, h, n, i, fuel+1 =>
    let j1 := 2 * i + 1
    if n ≤ j1 then (items, h)
    else
      let j := if decide (j1 + 1 < n) && hLess items h (j1 + 1) j1 then j1 + 1 else j1
      if hLess items h j i then
        let p := hSwap items h i j
        hDownGo p.1 p.2 n j fuel
      else (items, h)

/-- Function `down` of `container/heap` called at slot `i` with heap size
`n` (fuel `n`, see `hDownGo`). -/
def hDown (items : List (Nat × LfuHeapItem)) (h : List Nat) (n i : Nat) :
    List (Nat × LfuHeapItem) × List Nat :=
  hDownGo items h n i n

/-- Function `up` of `container/heap`, with fuel standing for the loop:
each iteration moves from slot `j` to its parent `(j-1)/2 < j`, so the
loop runs at most `j + 1` times; the caller passes the heap length as
fuel, which bounds `j + 1`.  (In Go, `(0-1)/2` truncates to `0`, the
`i == j` stop; `Nat` subtraction gives the same value.) -/
def hUpGo : List (Nat × LfuHeapItem) → List Nat → Nat → Nat →
    List (Nat × LfuHeapItem) × List Nat
  | items, h, _, 0 => (items, h)
  | items, h, j, fuel+1 =>
    let i := (j - 1) / 2
    if (i == j) || !(hLess items h j i) then (items, h)
    else
      let p := hSwap items h i j
      hUpGo p.1 p.2 i fuel

/-- Function `heap.Push`: the interface `Push` (set the new item's index
to the old length and append) followed by `up` at the last slot. -/
def hPush (items : List (Nat × LfuHeapItem)) (h : List Nat) (id : Nat) :
    List (Nat × LfuHeapItem) × List Nat :=
  let items1 := setIndex items id (Int.ofNat h.length)
  let h1 := h ++ [id]
  let p := hUpGo items1 h1 (h1.length - 1) h1.length
  p

/-- Function `heap.Pop`: swap the root with the last slot, `down` over the
shrunk range, then the interface `Pop` (take the last element, set its
index to `-1`, shrink).  The source only calls it on a non-empty heap. -/
def hPop (items : List (Nat × LfuHeapItem)) (h : List Nat) :
    List (Nat × LfuHeapItem) × List Nat × Nat :=
  let n := h.length - 1
  let p := hSwap items h 0 n
  let q := hDownGo p.1 p.2 n 0 n
  let id := q.2.getD n 0
  (setIndex q.1 id (-1), q.2.take n, id)

/-- Function `heap.Init`: `down` at slots `n/2 - 1, …, 0`; the counter
argument is the number of slots still to process. -/
def hInitGo : List (Nat × LfuHeapItem) → List Nat → Nat → Nat →
    List (Nat × LfuHeapItem) × List Nat
  | items, h, _, 0 => (items, h)
  | items, h, n, k+1 =>
    let p := hDown items h n k
    hInitGo p.1 p.2 n k

/-- Function `heap.Init` on the whole heap. -/
def hInit (items : List (Nat × LfuHeapItem)) (h : List Nat) :
    List (Nat × LfuHeapItem) × List Nat :=
  hInitGo items h h.length (h.length / 2)

/-- Value stored by the LFU wrapper in its backend (`lfuItem`): the
pointer to the heap item (an id) and the cached value. -/
structure LfuStored where
  heapItem : Nat
  value : Nat
deriving DecidableEq

/-- State of the LFU wrapper (`lfuCache` of src/lfuCache.go): capacity (a
Go `int`), the storage backend, the heap as a list of item ids (slot 0 is
the root), the id-indexed store of live heap items, and the id
allocator. -/
structure LfuState where
  capacity : Int
  storage : MC LfuStored
  heap : List Nat
  items : List (Nat × LfuHeapItem)
  nextId : Nat

/-- Constructor `NewLfu`: wraps a fresh `mapCache`, empty heap. -/
def newLfu (capacity : Int) : LfuState :=
  ⟨capacity, newMapCache LfuStored, [], [], 0⟩

/-- Constructor `NewLfuWithCustomCache`: fails with `CacheNotEmpty` when
the supplied backend holds at least one key (`len(keys) > 0`), otherwise
wraps it. -/
def newLfuWithCustomCache (capacity : Int) (c : MC LfuStored) :
    Except ErrType LfuState :=
  let keys := mcKeys c
  if keys.length > 0 then
    Except.error ErrType.cacheNotEmpty
  else
    Except.ok ⟨capacity, c, [], [], 0⟩

/-- Method `store` of the LFU wrapper: allocate a heap item with
frequency 0 for the key, store the pair in the backend (returning its
error on failure), push the item onto the heap, and when the heap has
grown past the capacity pop the minimum item and remove its key from the
backend. -/
def lfuStore (s : LfuState) (k v : Nat) : LfuState × Option ErrType :=
  let id := s.nextId
  let s0 : LfuState := { s with items := aset s.items id ⟨k, 0, 0⟩, nextId := id + 1 }
  match mcStore s0.storage k ⟨id, v⟩ with
  | (st1, some e) => ({ s0 with storage := st1 }, some e)
  | (st1, none) =>
    let p := hPush s0.items s0.heap id
    let s2 : LfuState := { s0 with storage := st1, items := p.1, heap := p.2 }
    if (s2.heap.length : Int) > s2.capacity then
      let q := hPop s2.items s2.heap
      let s3 : LfuState := { s2 with items := q.1, heap := q.2.1 }
      match mcRemove s3.storage (itemValue s3.items q.2.2) with
      | (st2, some e) => ({ s3 with storage := st2 }, some e)
      | (st2, none) => ({ s3 with storage := st2 }, none)
    else
      (s2, none)

/-- Method `get` of the LFU wrapper: fetch the stored pair (propagating
`DoesNotExist` without touching anything), increment the heap item's
frequency through its pointer, then `heap.Init` to re-establish heap
order. -/
def lfuGet (s : LfuState) (k : Nat) : LfuState × Except ErrType Nat :=
  match mcGet s.storage k with
  | Except.error e => (s, Except.error e)
  | Except.ok stored =>
    let items1 := bumpFreq s.items stored.heapItem
    let p := hInit items1 s.heap
    ({ s with items := p.1, heap := p.2 }, Except.ok stored.value)

/-- Method `isEmpty` of the LFU wrapper: `heap.Len() < 1`. -/
def lfuIsEmpty (s : LfuState) : Bool :=
  s.heap.length < 1

/-- Method `GetLeastFrequentlyUsedKey`: nil on an empty cache, otherwise
the key stored at the heap root `lfu.heap[0].value`. -/
def lfuGetLeastFrequentlyUsedKey (s : LfuState) : Option Nat :=
  if lfuIsEmpty s then none
  else some (itemValue s.items (s.heap.getD 0 0))

/-- Method `Count` of the LFU wrapper: the heap length. -/
def lfuCount (s : LfuState) : Nat :=
  s.heap.length

/-- Method `isFull` of the LFU wrapper: `heap.Len() >= capacity`. -/
def lfuIsFull (s : LfuState) : Bool :=
  (s.heap.length : Int) ≥ s.capacity

/-- Method `Keys` of the LFU wrapper: the backend's keys. -/
def lfuKeys (s : LfuState) : List Nat :=
  mcKeys s.storage

/-- Representation invariant of the Go maps of a `mapCache` state: a Go
map binds each key at most once. -/
abbrev MCWF {α : Type} (m : MC α) : Prop :=
  (m.cacheMap.map Prod.fst).Nodup
  ∧ (m.removeChannels.map Prod.fst).Nodup
  ∧ (m.updateChannels.map Prod.fst).Nodup

/-- Frequency counter of the heap item with the given id, if the id is
live. -/
def freqOf (items : List (Nat × LfuHeapItem)) (id : Nat) : Option Nat :=
  (alookup items id).map (fun it => it.frequency)

/-- Capacity-3 LRU cache after storing the four distinct keys 0,1,2,3:
the state of the C1 failing input. -/
def lruC1s : LruState :=
  (lruStore (lruStore (lruStore (lruStore (newLru 3) 0 10).1 1 11).1 2 12).1 3 13).1

/-- In-memory backend holding one (LRU-shaped) entry, for exercising the
constructor guards on a non-empty backend. -/
def mcOneLru : MC LruItem :=
  (mcStore (newMapCache LruItem) 9 ⟨99, 0⟩).1

/-- In-memory backend holding one (LFU-shaped) entry. -/
def mcOneLfu : MC LfuStored :=
  (mcStore (newMapCache LfuStored) 9 ⟨0, 99⟩).1

/-- Backend holding the permanent entry 0 ↦ 7: the C3 failing input. -/
def mcC3m : MC Nat :=
  (mcStore (newMapCache Nat) 0 7).1

/-- Backend state after `StoreWithExpiration(0, 7, 5)`: one entry, one
armed timer on channel 0. -/
def mcExpState : MC Nat :=
  (mcStoreWithExpiration (newMapCache Nat) 0 7 5).1

/-- Backend state after the timer of `mcExpState` fires and its
`expireRoutine` runs: the entry is gone but the `removeChannels`
reference survives (the C4 counterexample state). -/
def mcC4bad : MC Nat :=
  stepConsumeExpire (stepSignalFire mcExpState 0) 0

/-- C9 interleaving, step 1: the signaler fires (`proceed` is delivered)
before any caller intervenes. -/
def mcC9s1 : MC Nat :=
  stepSignalFire mcExpState 0

/-- C9 interleaving, step 2: `Remove(0)` supersedes the timer — its
`abort` signal is dropped by the do-once guard because `proceed` was
already delivered. -/
def mcC9s2 : MC Nat :=
  (mcRemove mcC9s1 0).1

/-- C9 interleaving, step 3: a fresh permanent entry 0 ↦ 8 is stored
after the supersession. -/
def mcC9s3 : MC Nat :=
  (mcStore mcC9s2 0 8).1

/-- C9 interleaving, step 4: the superseded `expireRoutine` finally runs,
consumes the `proceed` left in its channel, and deletes the entry that
was installed after it was superseded. -/
def mcC9s4 : MC Nat :=
  stepConsumeExpire mcC9s3 0

/-- Capacity-3 LRU cache after storing keys 0,1,2 and calling `Clear`:
the C7 failing input. -/
def lruC7s : LruState :=
  (lruClear (lruStore (lruStore (lruStore (newLru 3) 0 10).1 1 11).1 2 12).1).1

/-- Capacity-3 LFU cache holding the single key 0 (value 20), for the C8
witness. -/
def lfuC8s : LfuState :=
  (lfuStore (newLfu 3) 0 20).1

/-- Capacity-3 LFU cache holding the single key 5 (value 50), for the C10
witness. -/
def lfuC10s : LfuState :=
  (lfuStore (newLfu 3) 5 50).1

theorem alookup_aset_self {α : Type} (l : List (Nat × α)) (k : Nat) (v : α) :
    alookup (aset l k v) k = some v := by
  induction l with
  | nil => simp [aset, alookup]
  | cons p rest ih =>
    by_cases h : p.1 = k
    · simp [aset, alookup, h]
    · simp [aset, alookup, h, ih]

theorem alookup_aset_of_ne {α : Type} (l : List (Nat × α)) (k k' : Nat) (v : α)
    (h : k ≠ k') : alookup (aset l k v) k' = alookup l k' := by
  induction l with
  | nil => simp [aset, alookup, h]
  | cons p rest ih =>
    by_cases hp : p.1 = k
    · simp [aset, alookup, hp, h]
    · simp [aset, alookup, hp, ih]

theorem alookup_eq_none_of_not_mem_keys {α : Type} (l : List (Nat × α)) (k : Nat)
    (h : k ∉ l.map Prod.fst) : alookup l k = none := by
  induction l with
  | nil => rfl
  | cons p rest ih =>
    simp only [List.map_cons, List.mem_cons, not_or] at h
    have hp : ¬ p.1 = k := fun hc => h.1 hc.symm
    simp [alookup, hp, ih h.2]

theorem alookup_aerase_of_ne {α : Type} (l : List (Nat × α)) (k k' : Nat)
    (h : k ≠ k') : alookup (aerase l k) k' = alookup l k' := by
  induction l with
  | nil => rfl
  | cons p rest ih =>
    by_cases hp : p.1 = k
    · have hpk : ¬ p.1 = k' := by rw [hp]; exact h
      simp [aerase, if_pos hp, alookup, hpk]
    · simp [aerase, if_neg hp, alookup, ih]

theorem alookup_aerase_self {α : Type} (l : List (Nat × α)) (k : Nat)
    (hnd : (l.map Prod.fst).Nodup) : alookup (aerase l k) k = none := by
  induction l with
  | nil => rfl
  | cons p rest ih =>
    simp only [List.map_cons, List.nodup_cons] at hnd
    by_cases hp : p.1 = k
    · simp only [aerase, if_pos hp]
      apply alookup_eq_none_of_not_mem_keys
      rw [← hp]
      exact hnd.1
    · simp only [aerase, if_neg hp, alookup, if_neg hp]
      exact ih hnd.2

theorem aerase_of_lookup_none {α : Type} (l : List (Nat × α)) (k : Nat)
    (h : alookup l k = none) : aerase l k = l := by
  induction l with
  | nil => rfl
  | cons p rest ih =>
    by_cases hp : p.1 = k
    · simp [alookup, hp] at h
    · simp only [alookup, if_neg hp] at h
      simp [aerase, hp, ih h]

theorem aset_of_lookup_none {α : Type} (l : List (Nat × α)) (k : Nat) (v : α)
    (h : alookup l k = none) : aset l k v = l ++ [(k, v)] := by
  induction l with
  | nil => rfl
  | cons p rest ih =>
    by_cases hp : p.1 = k
    · simp [alookup, hp] at h
    · simp only [alookup, if_neg hp] at h
      simp [aset, hp, ih h]

theorem alookup_aerase_aset_self {α : Type} (l : List (Nat × α)) (k : Nat) (v : α)
    (h : alookup l k = none) : alookup (aerase (aset l k v) k) k = none := by
  induction l with
  | nil => simp [aset, aerase, alookup]
  | cons p rest ih =>
    by_cases hp : p.1 = k
    · simp [alookup, hp] at h
    · simp only [alookup, if_neg hp] at h
      simp [aset, aerase, alookup, hp, ih h]

theorem chanSignal_cacheMap {α : Type} (m : MC α) (c : Nat) (msg : Msg) :
    (chanSignal m c msg).cacheMap = m.cacheMap := by
  unfold chanSignal
  split <;> rfl

theorem chanSignal_removeChannels {α : Type} (m : MC α) (c : Nat) (msg : Msg) :
    (chanSignal m c msg).removeChannels = m.removeChannels := by
  unfold chanSignal
  split <;> rfl

theorem chanSignal_updateChannels {α : Type} (m : MC α) (c : Nat) (msg : Msg) :
    (chanSignal m c msg).updateChannels = m.updateChannels := by
  unfold chanSignal
  split <;> rfl

theorem chanSignal_nextChan {α : Type} (m : MC α) (c : Nat) (msg : Msg) :
    (chanSignal m c msg).nextChan = m.nextChan := by
  unfold chanSignal
  split <;> rfl

theorem chanSignal_signals {α : Type} (m : MC α) (c : Nat) (msg : Msg)
    (h : alookup m.chans c = some ChanState.unsignaled) :
    alookup (chanSignal m c msg).chans c = some (ChanState.signaled msg) := by
  unfold chanSignal
  rw [h]
  simp [alookup_aset_self]

theorem chanSignal_chans_other {α : Type} (m : MC α) (c c' : Nat) (msg : Msg)
    (hne : c' ≠ c) :
    alookup (chanSignal m c' msg).chans c = alookup m.chans c := by
  unfold chanSignal
  split
  · simp [alookup_aset_of_ne _ _ _ _ hne]
  · rfl

theorem chanSignal_preserves_signaled {α : Type} (m : MC α) (c c' : Nat)
    (msg msg' : Msg) (h : alookup m.chans c = some (ChanState.signaled msg)) :
    alookup (chanSignal m c' msg').chans c = some (ChanState.signaled msg) := by
  by_cases hcc : c' = c
  · subst hcc
    unfold chanSignal
    rw [h]
    exact h
  · rw [chanSignal_chans_other m c c' msg' hcc]
    exact h

theorem mcRemove_of_absent {α : Type} (m : MC α) (k : Nat)
    (h : alookup m.cacheMap k = none) :
    mcRemove m k = (m, some ErrType.doesNotExist) := by
  unfold mcRemove mcGet
  rw [h]

theorem mcRemove_of_present {α : Type} (m : MC α) (k : Nat) (v : α)
    (h : alookup m.cacheMap k = some v) :
    (mcRemove m k).2 = none
    ∧ (mcRemove m k).1.cacheMap = aerase m.cacheMap k
    ∧ (mcRemove m k).1.removeChannels = aerase m.removeChannels k
    ∧ (mcRemove m k).1.updateChannels = aerase m.updateChannels k
    ∧ (mcRemove m k).1.nextChan = m.nextChan := by
  unfold mcRemove mcGet
  rw [h]
  cases hr : alookup m.removeChannels k with
  | none =>
    cases hu : alookup m.updateChannels k with
    | none =>
      simp [hr, hu, aerase_of_lookup_none _ _ hr, aerase_of_lookup_none _ _ hu]
    | some cu =>
      simp [hr, hu, chanSignal_cacheMap, chanSignal_removeChannels,
        chanSignal_updateChannels, chanSignal_nextChan,
        aerase_of_lookup_none _ _ hr]
  | some cr =>
    have hu' : alookup (chanSignal m cr Msg.abort).updateChannels k
        = alookup m.updateChannels k := by
      rw [chanSignal_updateChannels]
    cases hu : alookup m.updateChannels k with
    | none =>
      simp [hr, hu, hu', chanSignal_cacheMap, chanSignal_removeChannels,
        chanSignal_updateChannels, chanSignal_nextChan,
        aerase_of_lookup_none _ _ hu]
    | some cu =>
      simp [hr, hu, hu', chanSignal_cacheMap, chanSignal_removeChannels,
        chanSignal_updateChannels, chanSignal_nextChan]

theorem mcStoreWithExpiration_ok {α : Type} (m : MC α) (k : Nat) (v : α)
    (ttl : Int) (hpos : 0 < ttl) (habs : alookup m.cacheMap k = none) :
    (mcStoreWithExpiration m k v ttl).2 = none
    ∧ alookup (mcStoreWithExpiration m k v ttl).1.cacheMap k = some v
    ∧ alookup (mcStoreWithExpiration m k v ttl).1.removeChannels k = some m.nextChan
    ∧ alookup (mcStoreWithExpiration m k v ttl).1.chans m.nextChan
        = some ChanState.unsignaled := by
  have hle : ¬ ttl ≤ 0 := not_le.mpr hpos
  unfold mcStoreWithExpiration mcStore
  rw [if_neg hle, habs]
  simp [alookup_aset_self]

theorem mcRemove_chans_abort_rem {α : Type} (m : MC α) (k : Nat) (v : α) (c : Nat)
    (h : alookup m.cacheMap k = some v)
    (hc : alookup m.removeChannels k = some c)
    (hun : alookup m.chans c = some ChanState.unsignaled) :
    alookup (mcRemove m k).1.chans c = some (ChanState.signaled Msg.abort) := by
  unfold mcRemove mcGet
  rw [h]
  have h1 : alookup (chanSignal m c Msg.abort).chans c
      = some (ChanState.signaled Msg.abort) := chanSignal_signals m c Msg.abort hun
  cases hu : alookup m.updateChannels k with
  | none =>
    simp [hc, chanSignal_updateChannels, hu, h1]
  | some cu =>
    simp only [hc, chanSignal_updateChannels, hu]
    exact chanSignal_preserves_signaled _ c cu Msg.abort Msg.abort h1

theorem mcRemove_chans_abort_upd {α : Type} (m : MC α) (k : Nat) (v : α) (c : Nat)
    (h : alookup m.cacheMap k = some v)
    (hc : alookup m.updateChannels k = some c)
    (hun : alookup m.chans c = some ChanState.unsignaled) :
    alookup (mcRemove m k).1.chans c = some (ChanState.signaled Msg.abort) := by
  unfold mcRemove mcGet
  rw [h]
  cases hr : alookup m.removeChannels k with
  | none =>
    simp [hr, hc, chanSignal_signals m c Msg.abort hun]
  | some cr =>
    by_cases hcc : cr = c
    · subst hcc
      have h1 : alookup (chanSignal m cr Msg.abort).chans cr
          = some (ChanState.signaled Msg.abort) :=
        chanSignal_signals m cr Msg.abort hun
      simp only [hr, chanSignal_updateChannels, hc]
      exact chanSignal_preserves_signaled _ cr cr Msg.abort Msg.abort h1
    · have h1 : alookup (chanSignal m cr Msg.abort).chans c
          = some ChanState.unsignaled := by
        rw [chanSignal_chans_other m c cr Msg.abort hcc]
        exact hun
      simp only [hr, chanSignal_updateChannels, hc]
      exact chanSignal_signals _ c Msg.abort h1

theorem freqOf_setIndex (items : List (Nat × LfuHeapItem)) (id : Nat) (ix : Int)
    (id' : Nat) : freqOf (setIndex items id ix) id' = freqOf items id' := by
  unfold setIndex
  cases h : alookup items id with
  | none => rfl
  | some it =>
    by_cases hid : id = id'
    · subst hid
      simp [freqOf, alookup_aset_self, h]
    · simp [freqOf, alookup_aset_of_ne _ _ _ _ hid]

theorem freqOf_hSwap (items : List (Nat × LfuHeapItem)) (h : List Nat)
    (i j id : Nat) : freqOf (hSwap items h i j).1 id = freqOf items id := by
  unfold hSwap
  simp [freqOf_setIndex]

theorem freqOf_hDownGo (fuel : Nat) :
    ∀ (items : List (Nat × LfuHeapItem)) (h : List Nat) (n i id : Nat),
    freqOf (hDownGo items h n i fuel).1 id = freqOf items id := by
  induction fuel with
  | zero => intro items h n i id; rfl
  | succ f ih =>
    intro items h n i id
    simp only [hDownGo]
    split
    · rfl
    · split <;>
      · split
        · rw [ih, freqOf_hSwap]
        · rfl

theorem freqOf_hUpGo (fuel : Nat) :
    ∀ (items : List (Nat × LfuHeapItem)) (h : List Nat) (j id : Nat),
    freqOf (hUpGo items h j fuel).1 id = freqOf items id := by
  induction fuel with
  | zero => intro items h j id; rfl
  | succ f ih =>
    intro items h j id
    simp only [hUpGo]
    split
    · rfl
    · rw [ih, freqOf_hSwap]

theorem freqOf_hInitGo (count : Nat) :
    ∀ (items : List (Nat × LfuHeapItem)) (h : List Nat) (n id : Nat),
    freqOf (hInitGo items h n count).1 id = freqOf items id := by
  induction count with
  | zero => intro items h n id; rfl
  | succ c ih =>
    intro items h n id
    simp only [hInitGo]
    rw [ih]
    exact freqOf_hDownGo n items h n c id

theorem freqOf_hInit (items : List (Nat × LfuHeapItem)) (h : List Nat) (id : Nat) :
    freqOf (hInit items h).1 id = freqOf items id := by
  unfold hInit
  exact freqOf_hInitGo _ items h _ id

theorem freqOf_hPush (items : List (Nat × LfuHeapItem)) (h : List Nat)
    (pid id : Nat) : freqOf (hPush items h pid).1 id = freqOf items id := by
  unfold hPush
  rw [freqOf_hUpGo, freqOf_setIndex]

theorem freqOf_hPop (items : List (Nat × LfuHeapItem)) (h : List Nat) (id : Nat) :
    freqOf (hPop items h).1 id = freqOf items id := by
  unfold hPop
  rw [freqOf_setIndex, freqOf_hDownGo, freqOf_hSwap]

theorem freqOf_bumpFreq_self (items : List (Nat × LfuHeapItem)) (id : Nat)
    (it : LfuHeapItem) (h : alookup items id = some it) :
    freqOf (bumpFreq items id) id = some (it.frequency + 1) := by
  unfold bumpFreq
  rw [h]
  simp [freqOf, alookup_aset_self]

theorem freqOf_bumpFreq_other (items : List (Nat × LfuHeapItem)) (id id' : Nat)
    (hne : id' ≠ id) : freqOf (bumpFreq items id) id' = freqOf items id' := by
  unfold bumpFreq
  cases h : alookup items id with
  | none => rfl
  | some it =>
    simp [freqOf, alookup_aset_of_ne _ _ _ _ (fun hc => hne hc.symm)]

/-- Claim C1 (code bug): the LRU synchronization invariant fails.  After
storing the four distinct keys 0,1,2,3 (values 10..13) on a capacity-3
LRU cache, the backend holds exactly the keys 1,2,3, but the ordering
sequence still holds nodes for all four keys — length 4, above both the
item count 3 and the capacity — because `store`'s eviction removes the
evicted key from the backend without unlinking its list node. -/
theorem lruSyncInvariantViolation :
    lruKeys lruC1s = [1, 2, 3]
    ∧ lruC1s.list.map Prod.snd = [3, 2, 1, 0]
    ∧ lruC1s.list.length = 4
    ∧ lruCount lruC1s = 3 := by
  refine ⟨by decide, by decide, by decide, by decide⟩

/-- Claim C2 (code bug): `NewLruWithCustomCache` has its emptiness check
inverted — it fails with `CacheNotEmpty` on an EMPTY backend and succeeds
on a backend holding a key — while `NewLfuWithCustomCache` implements the
guard correctly. -/
theorem customCacheConstructionGuard :
    newLruWithCustomCache 3 (newMapCache LruItem) = Except.error ErrType.cacheNotEmpty
    ∧ (newLruWithCustomCache 3 mcOneLru).isOk = true
    ∧ (newLfuWithCustomCache 3 (newMapCache LfuStored)).isOk = true
    ∧ newLfuWithCustomCache 3 mcOneLfu = Except.error ErrType.cacheNotEmpty :=
  ⟨rfl, rfl, rfl, rfl⟩

/-- Claim C7 (code bug): after `Clear()` on a capacity-3 LRU cache
holding three keys, the backend is indeed empty, but `Count()` still
returns 3, `IsEmpty()` returns false (the counter is never reset), and
the ordering sequence still holds 2 nodes (the removal loop stops after
the front node because `container/list.Remove` clears the node's links
before `Next()` is called). -/
theorem lruClearCountBug :
    lruKeys lruC7s = []
    ∧ lruCount lruC7s = 3
    ∧ lruIsEmpty lruC7s = false
    ∧ lruC7s.list.length = 2 := by
  refine ⟨by decide, by decide, by decide, by decide⟩

/-- Claim C9 (code bug): a superseded expiration timer does mutate state.
Interleaving: `StoreWithExpiration(0, 7, 5)` arms channel 0; the signaler
delivers `proceed`; `Remove(0)` supersedes the timer (its `abort` is
dropped by the do-once guard) and succeeds; a fresh entry 0 ↦ 8 is
stored; then the stale `expireRoutine` consumes the `proceed` and deletes
the entry installed after its supersession — it performs no
re-validation. -/
theorem supersededTimerMutationBug :
    (mcRemove mcC9s1 0).2 = none
    ∧ alookup mcC9s2.removeChannels 0 = none
    ∧ alookup mcC9s3.cacheMap 0 = some 8
    ∧ alookup mcC9s4.cacheMap 0 = none
    ∧ MCReach mcC9s4 :=
  ⟨rfl, rfl, rfl, rfl,
    MCReach.consumeExpire 0 (MCReach.store 0 8 (MCReach.remove 0
      (MCReach.signalFire 0 (MCReach.storeWithExpiration 0 7 5 MCReach.init))))⟩

/-- Claim C4 (counterexample): the timer-reference invariant fails on a
reachable backend state.  After `StoreWithExpiration(0, 7, 5)`, the
signaler firing, and the `expireRoutine` running, key 0 is gone from the
cache but its `removeChannels` reference survives (the routine only
deletes the cache entry), so a timer reference exists for a key with no
time-limit schedule. -/
theorem staleTimerReferenceCounterexample :
    MCReach mcC4bad
    ∧ alookup mcC4bad.cacheMap 0 = none
    ∧ alookup mcC4bad.removeChannels 0 = some 0
    ∧ alookup mcC4bad.chans 0 = some ChanState.consumed :=
  ⟨MCReach.consumeExpire 0 (MCReach.signalFire 0
      (MCReach.storeWithExpiration 0 7 5 MCReach.init)), rfl, rfl, rfl⟩

/-- Claim C3 (counterexample): `Expire(key, 0)` does not remove the key —
on a backend holding 0 ↦ 7, `expire(0, 0)` fails with
`NonPositivePeriod` and leaves the state unchanged. -/
theorem expireZeroTtlCounterexample :
    alookup mcC3m.cacheMap 0 = some 7
    ∧ mcExpire mcC3m 0 0 = (mcC3m, some ErrType.nonPositivePeriod) :=
  ⟨rfl, rfl⟩

theorem mcStore_of_absent {α : Type} (m : MC α) (k : Nat) (v : α)
    (h : alookup m.cacheMap k = none) :
    mcStore m k v = ({ m with cacheMap := aset m.cacheMap k v }, none) := by
  unfold mcStore
  rw [h]
  rfl

theorem mcPairEta {α : Type} (p : MC α × Option ErrType) (h : p.2 = none) :
    p = (p.1, none) := by
  rw [← h]

theorem mcReplace_eq {α : Type} (m : MC α) (k : Nat) (v : α)
    (h : (mcRemove m k).2 = none) :
    mcReplace m k v = mcStore (mcRemove m k).1 k v := by
  unfold mcReplace
  rw [mcPairEta (mcRemove m k) h]

/-- Claim C4 (amended): on any backend state whose Go maps are
duplicate-free, a successful `remove(k)` deletes the key, deletes both of
the key's timer references, and signals `abort` on any previously
unsignaled remove or update channel of the key; `replace(k, v)` likewise
leaves no timer reference for the key.  (The fired-expiration-timer case
of the original claim is refuted by `staleTimerReferenceCounterexample`.) -/
theorem removeCancelsTimersAmended {α : Type} (m : MC α) (k : Nat) (v : α)
    (hwf : MCWF m) (h : alookup m.cacheMap k = some v) :
    (mcRemove m k).2 = none
    ∧ alookup (mcRemove m k).1.cacheMap k = none
    ∧ alookup (mcRemove m k).1.removeChannels k = none
    ∧ alookup (mcRemove m k).1.updateChannels k = none
    ∧ (∀ c, alookup m.removeChannels k = some c →
        alookup m.chans c = some ChanState.unsignaled →
        alookup (mcRemove m k).1.chans c = some (ChanState.signaled Msg.abort))
    ∧ (∀ c, alookup m.updateChannels k = some c →
        alookup m.chans c = some ChanState.unsignaled →
        alookup (mcRemove m k).1.chans c = some (ChanState.signaled Msg.abort))
    ∧ (mcReplace m k v).2 = none
    ∧ alookup (mcReplace m k v).1.removeChannels k = none
    ∧ alookup (mcReplace m k v).1.updateChannels k = none := by
  obtain ⟨hnd, hndr, hndu⟩ := hwf
  obtain ⟨e2, ecm, erc, euc, _⟩ := mcRemove_of_present m k v h
  have hcm1 : alookup (mcRemove m k).1.cacheMap k = none := by
    rw [ecm]; exact alookup_aerase_self _ _ hnd
  have hrc1 : alookup (mcRemove m k).1.removeChannels k = none := by
    rw [erc]; exact alookup_aerase_self _ _ hndr
  have huc1 : alookup (mcRemove m k).1.updateChannels k = none := by
    rw [euc]; exact alookup_aerase_self _ _ hndu
  have hrepl : mcReplace m k v
      = ({ (mcRemove m k).1 with
            cacheMap := aset (mcRemove m k).1.cacheMap k v }, none) := by
    rw [mcReplace_eq m k v e2, mcStore_of_absent _ _ _ hcm1]
  refine ⟨e2, hcm1, hrc1, huc1, ?_, ?_, ?_, ?_, ?_⟩
  · intro c hc hun
    exact mcRemove_chans_abort_rem m k v c h hc hun
  · intro c hc hun
    exact mcRemove_chans_abort_upd m k v c h hc hun
  · rw [hrepl]
  · rw [hrepl]
    exact hrc1
  · rw [hrepl]
    exact huc1

/-- Witness for `removeCancelsTimersAmended` at the concrete backend
`mcExpState` (key 0 present with an armed, unsignaled timer on
channel 0). -/
theorem removeCancelsTimersAmendedWitness :
    (mcRemove mcExpState 0).2 = none
    ∧ alookup (mcRemove mcExpState 0).1.cacheMap 0 = none
    ∧ alookup (mcRemove mcExpState 0).1.removeChannels 0 = none
    ∧ alookup (mcRemove mcExpState 0).1.chans 0
        = some (ChanState.signaled Msg.abort) := by
  have hth := removeCancelsTimersAmended mcExpState 0 7 (by decide) (by decide)
  exact ⟨hth.1, hth.2.1, hth.2.2.1, hth.2.2.2.2.1 0 (by decide) (by decide)⟩

/-- Claim C3 (amended): `Expire` on the backend — `ttl ≤ 0` fails with
`NonPositivePeriod` leaving the state untouched (it does NOT remove the
key); `ttl > 0` on an absent key fails with `DoesNotExist` leaving the
state untouched; `ttl > 0` on a present key succeeds, keeps the key's
value, and installs a fresh (unsignaled) expiration timer for it. -/
theorem expireSemanticsAmended {α : Type} (m : MC α) (k : Nat) (ttl : Int)
    (v : α) (hwf : MCWF m) :
    (ttl ≤ 0 → mcExpire m k ttl = (m, some ErrType.nonPositivePeriod))
    ∧ (0 < ttl → alookup m.cacheMap k = none →
        mcExpire m k ttl = (m, some ErrType.doesNotExist))
    ∧ (0 < ttl → alookup m.cacheMap k = some v →
        (mcExpire m k ttl).2 = none
        ∧ alookup (mcExpire m k ttl).1.cacheMap k = some v
        ∧ alookup (mcExpire m k ttl).1.removeChannels k = some m.nextChan
        ∧ alookup (mcExpire m k ttl).1.chans m.nextChan
            = some ChanState.unsignaled) := by
  refine ⟨?_, ?_, ?_⟩
  · intro hle
    unfold mcExpire
    rw [if_pos hle]
  · intro hpos habs
    unfold mcExpire mcGet
    rw [if_neg (not_le.mpr hpos), habs]
  · intro hpos hk
    obtain ⟨e2, ecm, erc, euc, enc⟩ := mcRemove_of_present m k v hk
    have habs1 : alookup (mcRemove m k).1.cacheMap k = none := by
      rw [ecm]; exact alookup_aerase_self _ _ hwf.1
    have hswe := mcStoreWithExpiration_ok (mcRemove m k).1 k v ttl hpos habs1
    rw [enc] at hswe
    have hexp : mcExpire m k ttl = mcStoreWithExpiration (mcRemove m k).1 k v ttl := by
      unfold mcExpire mcGet
      rw [if_neg (not_le.mpr hpos), hk, mcPairEta (mcRemove m k) e2]
    rw [hexp]
    exact hswe

/-- Witness for `expireSemanticsAmended` at the concrete one-entry
backend `mcC3m` (0 ↦ 7, no timers): the three cases at ttl = 0, at a
missing key with ttl = 9, and at the present key with ttl = 9. -/
theorem expireSemanticsAmendedWitness :
    mcExpire mcC3m 0 0 = (mcC3m, some ErrType.nonPositivePeriod)
    ∧ mcExpire mcC3m 5 9 = (mcC3m, some ErrType.doesNotExist)
    ∧ ((mcExpire mcC3m 0 9).2 = none
        ∧ alookup (mcExpire mcC3m 0 9).1.cacheMap 0 = some 7
        ∧ alookup (mcExpire mcC3m 0 9).1.removeChannels 0 = some 0
        ∧ alookup (mcExpire mcC3m 0 9).1.chans 0 = some ChanState.unsignaled) := by
  refine ⟨?_, ?_, ?_⟩
  · exact (expireSemanticsAmended mcC3m 0 0 7 (by decide)).1 (by decide)
  · exact (expireSemanticsAmended mcC3m 5 9 7 (by decide)).2.1 (by decide) (by decide)
  · exact (expireSemanticsAmended mcC3m 0 9 7 (by decide)).2.2 (by decide) (by decide)

/-- Claim C10: `GetLeastFrequentlyUsedKey` returns nil (none) on an LFU
cache whose heap is empty, without touching the heap, and on a non-empty
cache returns the key stored in the heap item at the root slot. -/
theorem getLeastFrequentlyUsedKeyTotal (s : LfuState) :
    (s.heap = [] → lfuGetLeastFrequentlyUsedKey s = none)
    ∧ (∀ id rest, s.heap = id :: rest →
        lfuGetLeastFrequentlyUsedKey s = some (itemValue s.items id)) := by
  constructor
  · intro h
    simp [lfuGetLeastFrequentlyUsedKey, lfuIsEmpty, h]
  · intro id rest h
    simp [lfuGetLeastFrequentlyUsedKey, lfuIsEmpty, h]

/-- Witness for `getLeastFrequentlyUsedKeyTotal`: the empty capacity-3
LFU cache yields none; the one-entry cache `lfuC10s` (key 5) yields
some 5. -/
theorem getLeastFrequentlyUsedKeyTotalWitness :
    lfuGetLeastFrequentlyUsedKey (newLfu 3) = none
    ∧ lfuGetLeastFrequentlyUsedKey lfuC10s = some 5 := by
  refine ⟨(getLeastFrequentlyUsedKeyTotal (newLfu 3)).1 rfl, ?_⟩
  exact (getLeastFrequentlyUsedKeyTotal lfuC10s).2 0 [] rfl

theorem alookup_aerase_aset {α : Type} (l : List (Nat × α)) (k pk : Nat)
    (v w : α) (hnone : alookup l k = none)
    (h : alookup (aerase (aset l k v) pk) k = some w) : w = v := by
  by_cases hpk : pk = k
  · subst hpk
    rw [alookup_aerase_aset_self _ _ _ hnone] at h
    cases h
  · rw [alookup_aerase_of_ne _ _ _ hpk, alookup_aset_self] at h
    injection h with h
    exact h.symm

theorem mcStore_inv {α : Type} (m : MC α) (k : Nat) (v : α) (m1 : MC α)
    (h : mcStore m k v = (m1, none)) :
    alookup m.cacheMap k = none
    ∧ m1 = { m with cacheMap := aset m.cacheMap k v } := by
  unfold mcStore at h
  by_cases hl : (alookup m.cacheMap k).isSome
  · rw [if_pos hl] at h
    simp only [Prod.mk.injEq] at h
    exact absurd h.2 (by simp)
  · rw [if_neg hl] at h
    simp only [Prod.mk.injEq] at h
    exact ⟨Option.not_isSome_iff_eq_none.mp hl, h.1.symm⟩

theorem mcRemove_inv_cacheMap {α : Type} (m : MC α) (k : Nat) (m1 : MC α)
    (h : mcRemove m k = (m1, none)) :
    m1.cacheMap = aerase m.cacheMap k := by
  cases hl : alookup m.cacheMap k with
  | none =>
    rw [mcRemove_of_absent m k hl] at h
    simp only [Prod.mk.injEq] at h
    exact absurd h.2 (by simp)
  | some w =>
    obtain ⟨e2, ecm, rest⟩ := mcRemove_of_present m k w hl
    have hm1 : m1 = (mcRemove m k).1 := by rw [h]
    rw [hm1, ecm]

theorem lfuStoreFreqCore (s : LfuState) (k v : Nat) :
    ∀ s1, lfuStore s k v = (s1, none) →
      ∀ st, alookup s1.storage.cacheMap k = some st →
        freqOf s1.items st.heapItem = some 0 := by
  intro s1 hs1 st hst
  unfold lfuStore at hs1
  simp only [] at hs1
  split at hs1
  · simp only [Prod.mk.injEq] at hs1
    exact absurd hs1.2 (by simp)
  · rename_i st1 heq
    obtain ⟨habs, hst1⟩ := mcStore_inv _ _ _ _ heq
    split at hs1
    · split at hs1
      · simp only [Prod.mk.injEq] at hs1
        exact absurd hs1.2 (by simp)
      · rename_i st2 heq2
        simp only [Prod.mk.injEq] at hs1
        obtain ⟨h1, _⟩ := hs1
        subst h1
        have hcm2 := mcRemove_inv_cacheMap _ _ _ heq2
        simp only [hcm2, hst1] at hst
        have hstv := alookup_aerase_aset _ _ _ _ _ habs hst
        subst hstv
        rw [freqOf_hPop, freqOf_hPush]
        simp [freqOf, alookup_aset_self]
    · simp only [Prod.mk.injEq] at hs1
      obtain ⟨h1, _⟩ := hs1
      subst h1
      simp only [hst1, alookup_aset_self] at hst
      injection hst with hst
      subst hst
      rw [freqOf_hPush]
      simp [freqOf, alookup_aset_self]

/-- Claim C8: LFU frequency accounting.  On any LFU cache state, a
successful `Get(k)` increments exactly the frequency counter of the heap
item referenced by k's stored pair (by 1) and leaves every other item's
counter unchanged, returning the stored value; a `Get` that fails with
`DoesNotExist` returns the state completely unchanged; and after a
successful `Store(k, v)`, the heap item that k's stored pair references
carries frequency 0. -/
theorem lfuFrequencyAccounting (s : LfuState) (k v : Nat) :
    (∀ st, mcGet s.storage k = Except.ok st →
      (∀ it, alookup s.items st.heapItem = some it →
          freqOf (lfuGet s k).1.items st.heapItem = some (it.frequency + 1))
      ∧ (∀ id, id ≠ st.heapItem →
          freqOf (lfuGet s k).1.items id = freqOf s.items id)
      ∧ (lfuGet s k).2 = Except.ok st.value)
    ∧ (∀ e, mcGet s.storage k = Except.error e →
        lfuGet s k = (s, Except.error e))
    ∧ (∀ s1, lfuStore s k v = (s1, none) →
        ∀ st, alookup s1.storage.cacheMap k = some st →
          freqOf s1.items st.heapItem = some 0) := by
  refine ⟨?_, ?_, lfuStoreFreqCore s k v⟩
  · intro st hst
    have hitems : (lfuGet s k).1.items
        = (hInit (bumpFreq s.items st.heapItem) s.heap).1 := by
      unfold lfuGet
      rw [hst]
    refine ⟨?_, ?_, ?_⟩
    · intro it hit
      rw [hitems, freqOf_hInit, freqOf_bumpFreq_self _ _ _ hit]
    · intro id hid
      rw [hitems, freqOf_hInit, freqOf_bumpFreq_other _ _ _ hid]
    · unfold lfuGet
      rw [hst]
  · intro e he
    unfold lfuGet
    rw [he]

/-- Witness for `lfuFrequencyAccounting` at the one-entry capacity-3 LFU
cache `lfuC8s` (key 0, value 20, item id 0): a successful get moves the
counter from 0 to 1 and touches no other id, a get of the missing key 5
changes nothing, and the store that built the state set the counter
to 0. -/
theorem lfuFrequencyAccountingWitness :
    freqOf (lfuGet lfuC8s 0).1.items 0 = some 1
    ∧ (lfuGet lfuC8s 0).2 = Except.ok 20
    ∧ freqOf (lfuGet lfuC8s 0).1.items 7 = freqOf lfuC8s.items 7
    ∧ lfuGet lfuC8s 5 = (lfuC8s, Except.error ErrType.doesNotExist)
    ∧ freqOf lfuC8s.items 0 = some 0 := by
  have h := lfuFrequencyAccounting lfuC8s 0 20
  have hget := h.1 ⟨0, 20⟩ rfl
  refine ⟨?_, ?_, ?_, ?_, ?_⟩
  · exact hget.1 ⟨0, 0, 0⟩ rfl
  · exact hget.2.2
  · exact hget.2.1 7 (by decide)
  · exact (lfuFrequencyAccounting lfuC8s 5 20).2.1 ErrType.doesNotExist rfl
  · exact (lfuFrequencyAccounting (newLfu 3) 0 20).2.2 lfuC8s rfl ⟨0, 20⟩ rfl

/-- Claim C5: LRU eviction law.  On a capacity-3 LRU cache that starts
empty, storing four distinct keys in order k0, k1, k2, k3 evicts exactly
k0 from the backend: `Get(k0)` afterwards fails with `DoesNotExist`, and
k1, k2, k3 remain retrievable with their stored values. -/
theorem lruEvictionLaw (k0 k1 k2 k3 v0 v1 v2 v3 : Nat)
    (h01 : k0 ≠ k1) (h02 : k0 ≠ k2) (h03 : k0 ≠ k3)
    (h12 : k1 ≠ k2) (h13 : k1 ≠ k3) (h23 : k2 ≠ k3) :
    (lruGet (lruStore (lruStore (lruStore (lruStore (newLru 3) k0 v0).1
        k1 v1).1 k2 v2).1 k3 v3).1 k0).2 = Except.error ErrType.doesNotExist
    ∧ (lruGet (lruStore (lruStore (lruStore (lruStore (newLru 3) k0 v0).1
        k1 v1).1 k2 v2).1 k3 v3).1 k1).2 = Except.ok v1
    ∧ (lruGet (lruStore (lruStore (lruStore (lruStore (newLru 3) k0 v0).1
        k1 v1).1 k2 v2).1 k3 v3).1 k2).2 = Except.ok v2
    ∧ (lruGet (lruStore (lruStore (lruStore (lruStore (newLru 3) k0 v0).1
        k1 v1).1 k2 v2).1 k3 v3).1 k3).2 = Except.ok v3 := by
  simp [lruStore, lruGet, mcStore, mcGet, mcRemove, chanSignal, newLru,
    newMapCache, alookup, aset, aerase, listMoveToFront,
    h01, h02, h03, h12, h13, h23, Ne.symm h01, Ne.symm h02, Ne.symm h03,
    Ne.symm h12, Ne.symm h13, Ne.symm h23]

/-- Witness for `lruEvictionLaw` at the keys 0, 1, 2, 3 with values
10..13. -/
theorem lruEvictionLawWitness :
    ((0 : Nat) ≠ 1 ∧ (0 : Nat) ≠ 2 ∧ (0 : Nat) ≠ 3
      ∧ (1 : Nat) ≠ 2 ∧ (1 : Nat) ≠ 3 ∧ (2 : Nat) ≠ 3)
    ∧ ((lruGet (lruStore (lruStore (lruStore (lruStore (newLru 3) 0 10).1
          1 11).1 2 12).1 3 13).1 0).2 = Except.error ErrType.doesNotExist
      ∧ (lruGet (lruStore (lruStore (lruStore (lruStore (newLru 3) 0 10).1
          1 11).1 2 12).1 3 13).1 1).2 = Except.ok 11
      ∧ (lruGet (lruStore (lruStore (lruStore (lruStore (newLru 3) 0 10).1
          1 11).1 2 12).1 3 13).1 2).2 = Except.ok 12
      ∧ (lruGet (lruStore (lruStore (lruStore (lruStore (newLru 3) 0 10).1
          1 11).1 2 12).1 3 13).1 3).2 = Except.ok 13) :=
  ⟨by decide,
    lruEvictionLaw 0 1 2 3 10 11 12 13 (by decide) (by decide) (by decide)
      (by decide) (by decide) (by decide)⟩

/-- Claim C6: LFU eviction law.  On a capacity-3 LFU cache that starts
empty, after storing three distinct keys k0, k1, k2 and calling `Get(k0)`
and `Get(k1)` once each (k2 untouched), storing a fourth distinct key k3
succeeds and evicts exactly k2, the entry with minimum frequency 0: the
backend then holds k0, k1, k3 and `Get(k2)` fails with `DoesNotExist`. -/
theorem lfuEvictionLaw (k0 k1 k2 k3 v0 v1 v2 v3 : Nat)
    (h01 : k0 ≠ k1) (h02 : k0 ≠ k2) (h03 : k0 ≠ k3)
    (h12 : k1 ≠ k2) (h13 : k1 ≠ k3) (h23 : k2 ≠ k3) :
    (lfuStore (lfuGet (lfuGet (lfuStore (lfuStore (lfuStore (newLfu 3)
        k0 v0).1 k1 v1).1 k2 v2).1 k0).1 k1).1 k3 v3).2 = none
    ∧ lfuKeys (lfuStore (lfuGet (lfuGet (lfuStore (lfuStore (lfuStore (newLfu 3)
        k0 v0).1 k1 v1).1 k2 v2).1 k0).1 k1).1 k3 v3).1 = [k0, k1, k3]
    ∧ (lfuGet (lfuStore (lfuGet (lfuGet (lfuStore (lfuStore (lfuStore (newLfu 3)
        k0 v0).1 k1 v1).1 k2 v2).1 k0).1 k1).1 k3 v3).1 k2).2
      = Except.error ErrType.doesNotExist := by
  have e1 : lfuStore (newLfu 3) k0 v0
      = (⟨3, ⟨[(k0, ⟨0, v0⟩)], [], [], [], 0, [], [], [], false⟩,
          [0], [(0, ⟨k0, 0, 0⟩)], 1⟩, none) := by
    simp [lfuStore, mcStore, newLfu, newMapCache, alookup, aset, hPush, hUpGo,
      hSwap, hLess, itemFreq, setIndex]
  have e2 : lfuStore (⟨3, ⟨[(k0, ⟨0, v0⟩)], [], [], [], 0, [], [], [], false⟩,
          [0], [(0, ⟨k0, 0, 0⟩)], 1⟩ : LfuState) k1 v1
      = (⟨3, ⟨[(k0, ⟨0, v0⟩), (k1, ⟨1, v1⟩)], [], [], [], 0, [], [], [], false⟩,
          [0, 1], [(0, ⟨k0, 0, 0⟩), (1, ⟨k1, 0, 1⟩)], 2⟩, none) := by
    simp [lfuStore, mcStore, alookup, aset, hPush, hUpGo, hSwap, hLess,
      itemFreq, setIndex, h01, Ne.symm h01]
  have e3 : lfuStore (⟨3, ⟨[(k0, ⟨0, v0⟩), (k1, ⟨1, v1⟩)], [], [], [], 0, [], [], [], false⟩,
          [0, 1], [(0, ⟨k0, 0, 0⟩), (1, ⟨k1, 0, 1⟩)], 2⟩ : LfuState) k2 v2
      = (⟨3, ⟨[(k0, ⟨0, v0⟩), (k1, ⟨1, v1⟩), (k2, ⟨2, v2⟩)], [], [], [], 0, [], [], [], false⟩,
          [0, 1, 2], [(0, ⟨k0, 0, 0⟩), (1, ⟨k1, 0, 1⟩), (2, ⟨k2, 0, 2⟩)], 3⟩, none) := by
    simp [lfuStore, mcStore, alookup, aset, hPush, hUpGo, hSwap, hLess,
      itemFreq, setIndex, h02, h12, Ne.symm h02, Ne.symm h12]
  have e4 : lfuGet (⟨3, ⟨[(k0, ⟨0, v0⟩), (k1, ⟨1, v1⟩), (k2, ⟨2, v2⟩)], [], [], [], 0, [], [], [], false⟩,
          [0, 1, 2], [(0, ⟨k0, 0, 0⟩), (1, ⟨k1, 0, 1⟩), (2, ⟨k2, 0, 2⟩)], 3⟩ : LfuState) k0
      = (⟨3, ⟨[(k0, ⟨0, v0⟩), (k1, ⟨1, v1⟩), (k2, ⟨2, v2⟩)], [], [], [], 0, [], [], [], false⟩,
          [1, 0, 2], [(0, ⟨k0, 1, 0⟩), (1, ⟨k1, 0, 1⟩), (2, ⟨k2, 0, 2⟩)], 3⟩, Except.ok v0) := by
    simp [lfuGet, mcGet, alookup, aset, bumpFreq, hInit, hInitGo, hDown,
      hDownGo, hSwap, hLess, itemFreq, setIndex]
  have e5 : lfuGet (⟨3, ⟨[(k0, ⟨0, v0⟩), (k1, ⟨1, v1⟩), (k2, ⟨2, v2⟩)], [], [], [], 0, [], [], [], false⟩,
          [1, 0, 2], [(0, ⟨k0, 1, 0⟩), (1, ⟨k1, 0, 1⟩), (2, ⟨k2, 0, 2⟩)], 3⟩ : LfuState) k1
      = (⟨3, ⟨[(k0, ⟨0, v0⟩), (k1, ⟨1, v1⟩), (k2, ⟨2, v2⟩)], [], [], [], 0, [], [], [], false⟩,
          [2, 0, 1], [(0, ⟨k0, 1, 0⟩), (1, ⟨k1, 1, 0⟩), (2, ⟨k2, 0, 2⟩)], 3⟩, Except.ok v1) := by
    simp [lfuGet, mcGet, alookup, aset, bumpFreq, hInit, hInitGo, hDown,
      hDownGo, hSwap, hLess, itemFreq, setIndex, h01, Ne.symm h01]
  have e6 : lfuStore (⟨3, ⟨[(k0, ⟨0, v0⟩), (k1, ⟨1, v1⟩), (k2, ⟨2, v2⟩)], [], [], [], 0, [], [], [], false⟩,
          [2, 0, 1], [(0, ⟨k0, 1, 0⟩), (1, ⟨k1, 1, 0⟩), (2, ⟨k2, 0, 2⟩)], 3⟩ : LfuState) k3 v3
      = (⟨3, ⟨[(k0, ⟨0, v0⟩), (k1, ⟨1, v1⟩), (k3, ⟨3, v3⟩)], [], [], [], 0, [], [], [], false⟩,
          [3, 0, 1], [(0, ⟨k0, 1, 0⟩), (1, ⟨k1, 1, 0⟩), (2, ⟨k2, 0, -1⟩), (3, ⟨k3, 0, 1⟩)], 4⟩, none) := by
    simp [lfuStore, mcStore, mcGet, mcRemove, chanSignal, alookup, aset, aerase,
      hPush, hPop, hUpGo, hDownGo, hSwap, hLess, itemFreq, itemValue, setIndex,
      h03, h13, h23, h02, h12, Ne.symm h03, Ne.symm h13, Ne.symm h23,
      Ne.symm h02, Ne.symm h12]
  rw [e1, e2, e3, e4, e5, e6]
  refine ⟨rfl, by simp [lfuKeys, mcKeys], ?_⟩
  simp [lfuGet, mcGet, alookup, h02, h12, Ne.symm h02, Ne.symm h12,
    Ne.symm h23]

/-- Witness for `lfuEvictionLaw` at the keys 0, 1, 2, 3 with values
20..23. -/
theorem lfuEvictionLawWitness :
    ((0 : Nat) ≠ 1 ∧ (0 : Nat) ≠ 2 ∧ (0 : Nat) ≠ 3
      ∧ (1 : Nat) ≠ 2 ∧ (1 : Nat) ≠ 3 ∧ (2 : Nat) ≠ 3)
    ∧ ((lfuStore (lfuGet (lfuGet (lfuStore (lfuStore (lfuStore (newLfu 3)
          0 20).1 1 21).1 2 22).1 0).1 1).1 3 23).2 = none
      ∧ lfuKeys (lfuStore (lfuGet (lfuGet (lfuStore (lfuStore (lfuStore (newLfu 3)
          0 20).1 1 21).1 2 22).1 0).1 1).1 3 23).1 = [0, 1, 3]
      ∧ (lfuGet (lfuStore (lfuGet (lfuGet (lfuStore (lfuStore (lfuStore (newLfu 3)
          0 20).1 1 21).1 2 22).1 0).1 1).1 3 23).1 2).2
        = Except.error ErrType.doesNotExist) :=
  ⟨by decide,
    lfuEvictionLaw 0 1 2 3 20 21 22 23 (by decide) (by decide) (by decide)
      (by decide) (by decide) (by decide)⟩
